import Mathlib

/-!
Verification of the `pegre` PEG combinator engine (src/pegre.py).

The embedding mirrors the Python source:

* Input strings are `List Char` (Python strings, sliced with `s[:n]` / `s[n:]`,
  become `List.take` / `List.drop`).
* A Python matcher value is either the `Ignore` singleton, `None`, a string,
  a list, or some other object (modelled by `PValue.nat` as an opaque stand-in).
* A matcher call returns `None` (match failure, `Option.none` inside `.ok`),
  a pair `(remainder, value)` (`Option.some` inside `.ok`), or raises an
  exception (`Except.error`): a `KeyError` from `grm[n]` on an undefined
  nonterminal, or the `NameError` raised by `match_one_or_more`'s reference
  to the undefined global `accumulate`.
* The `while` loops of `match_zero_or_more` / `match_one_or_more` are modelled
  with an explicit fuel parameter; a result of `Option.none` at the outer
  layer (`FRes`) means the loop did not finish within the given fuel, i.e.
  models nontermination.
-/

/-- Input strings: Python `str` sliced by index. -/
abbrev Str := List Char

/-- Python values produced by matchers.  `ignore` is the `Ignore` singleton
(`Ignore = object()`), `none` is Python `None`; `nat` stands in for any other
Python object. -/
inductive PValue where
  | ignore
  | none
  | str (cs : Str)
  | list (vs : List PValue)
  | nat (n : Nat)

/-- Python exceptions that the engine can raise: `KeyError` from `grm[n]`
(undefined grammar symbol) and `NameError` from the undefined global
`accumulate` in `match_one_or_more`. -/
inductive PegError where
  | keyError (n : String)
  | nameError (n : String)

/-- What one call of a Python matcher returns: an exception, `None`
(match failure), or a `(remainder, value)` pair. -/
abbrev MRes := Except PegError (Option (Str × PValue))

/-- A matcher with the grammar argument already fixed: the Python functions
`match_*` all receive `(s, grm)` and pass `grm` through unchanged, so for the
combinator-level claims the sub-matchers are arbitrary functions of `s`. -/
abbrev Matcher := Str → MRes

/-- Result of a fuelled loop: `Option.none` means the loop did not finish
(models nontermination of the Python `while` loop). -/
abbrev FRes := Option MRes

/-- The statement `if obj is not Ignore: data.append(obj)` shared by the
collection-producing combinators: append `obj` unless it is the `Ignore`
singleton. -/
def keep (data : List PValue) (obj : PValue) : List PValue :=
  match obj with
  | .ignore => data
  | _ => data ++ [obj]

/-- The `valued_f` wrapper produced by the `valuemap` decorator for a
non-callable `value` keyword: on success the produced value is replaced by
`v`, failure and exceptions are unchanged. -/
def valued_fix (v : PValue) (m : Matcher) : Matcher := fun s =>
  match m s with
  | .error er => .error er
  | .ok none => .ok none
  | .ok (some (r, _)) => .ok (some (r, v))

/-- `match_literal` inside `literal(x)`:
`if s[:xlen] == x: return (s[xlen:], x); return None`. -/
def match_literal (x : Str) : Matcher := fun s =>
  if s.take x.length = x then .ok (some (s.drop x.length, .str x)) else .ok none

/-- `match_and_next` inside `and_next(e)`: `if e(s, grm): return (s, Ignore)`;
a 2-tuple is always truthy in Python, so the test is «result is not None». -/
def match_and_next (e : Matcher) : Matcher := fun s =>
  match e s with
  | .error er => .error er
  | .ok (some _) => .ok (some (s, .ignore))
  | .ok none => .ok none

/-- `match_not_next` inside `not_next(e)`: `if not e(s, grm): return (s, Ignore)`. -/
def match_not_next (e : Matcher) : Matcher := fun s =>
  match e s with
  | .error er => .error er
  | .ok (some _) => .ok none
  | .ok none => .ok (some (s, .ignore))

/-- `match_optional` inside `optional(e)`: return `e`'s result if it is not
`None`, else `(s, Ignore)`. -/
def match_optional (e : Matcher) : Matcher := fun s =>
  match e s with
  | .error er => .error er
  | .ok (some r) => .ok (some r)
  | .ok none => .ok (some (s, .ignore))

/-- The `for e in es` loop of `match_sequence`, threading the remainder and
the `data` accumulator; `data.append(obj)` is skipped when `obj is Ignore`. -/
def seq_go : List Matcher → Str → List PValue → MRes
  | [], s, data => .ok (some (s, .list data))
  | e :: es, s, data =>
    match e s with
    | .error er => .error er
    | .ok none => .ok none
    | .ok (some (s', obj)) => seq_go es s' (keep data obj)

/-- `match_sequence` inside `sequence(*es)`. -/
def match_sequence (es : List Matcher) : Matcher := fun s => seq_go es s []

/-- `match_choice` inside `choice(*es)`: return the first non-`None` result,
each alternative tried on the original `s`. -/
def match_choice : List Matcher → Matcher
  | [], _ => .ok none
  | e :: es, s =>
    match e s with
    | .error er => .error er
    | .ok (some r) => .ok (some r)
    | .ok none => match_choice es s

/-- The `while result is not None` loop of `match_zero_or_more`.  The state
`(s, obj)` is the pair just unpacked from `result`; `data` is the accumulator.
One unit of fuel is spent per iteration. -/
def zom_loop (e : Matcher) (d : Option Matcher) : Nat → Str × PValue → List PValue → FRes
  | 0, _, _ => none
  | fuel + 1, (s, obj), data =>
    match d with
    | some dm =>
      match dm s with
      | .error er => some (.error er)
      | .ok none => some (.ok (some (s, .list (keep data obj))))
      | .ok (some (s1, objd)) =>
        match e s1 with
        | .error er => some (.error er)
        | .ok none => some (.ok (some (s1, .list (keep (keep data obj) objd))))
        | .ok (some r) => zom_loop e d fuel r (keep (keep data obj) objd)
    | none =>
      match e s with
      | .error er => some (.error er)
      | .ok none => some (.ok (some (s, .list (keep data obj))))
      | .ok (some r) => zom_loop e d fuel r (keep data obj)

/-- `match_zero_or_more` inside `zero_or_more(e, delimiter)`: if the first
`e(s, grm)` fails the result is `(s, Ignore)`; otherwise the loop runs and
returns `(s, data)` at the first failing attempt. -/
def match_zero_or_more (e : Matcher) (d : Option Matcher) (fuel : Nat) : Str → FRes :=
  fun s =>
    match e s with
    | .error er => some (.error er)
    | .ok none => some (.ok (some (s, .ignore)))
    | .ok (some r) => zom_loop e d fuel r []

/-- The `while` loop of `match_one_or_more`.  The body runs
`accumulate(data, obj)` when `obj is not Ignore`, but `accumulate` is not
defined anywhere in the module, so that statement raises
`NameError: name 'accumulate' is not defined`. -/
def oom_loop (e : Matcher) (d : Option Matcher) : Nat → Str × PValue → List PValue → FRes
  | 0, _, _ => none
  | fuel + 1, (s, obj), data =>
    match obj with
    | .ignore =>
      match d with
      | some dm =>
        match dm s with
        | .error er => some (.error er)
        | .ok none => some (.ok (some (s, .list data)))
        | .ok (some (s1, objd)) =>
          match e s1 with
          | .error er => some (.error er)
          | .ok none => some (.ok (some (s1, .list (keep data objd))))
          | .ok (some r) => oom_loop e d fuel r (keep data objd)
      | none =>
        match e s with
        | .error er => some (.error er)
        | .ok none => some (.ok (some (s, .list data)))
        | .ok (some r) => oom_loop e d fuel r data
    | _ => some (.error (.nameError "accumulate"))

/-- `match_one_or_more` inside `one_or_more(e, delimiter)`: fails (`None`)
when the first `e(s, grm)` fails; otherwise runs the loop. -/
def match_one_or_more (e : Matcher) (d : Option Matcher) (fuel : Nat) : Str → FRes :=
  fun s =>
    match e s with
    | .error er => some (.error er)
    | .ok none => some (.ok none)
    | .ok (some r) => oom_loop e d fuel r []

/-!
## Deep embedding: matchers built from the engine's constructors

For the invariants quantified over «every matcher built from the engine's
constructors» and for the grammar-dependent parts (`nonterminal`, `Peg.parse`)
the matchers are represented as syntax trees interpreted against a grammar
table.  `rgx f` models `regex(r)`: the compiled pattern is abstracted as the
function `f` giving the end index of the anchored match (`re.match` returns a
span inside `s`, value `m.group() = s[:m.end()]`, remainder `s[m.end():]`).
`valFix` / `valMap` model the `valuemap` wrapper with a non-callable / callable
`value` keyword.  All interpreter functions spend one unit of fuel per
recursive call; `Option.none` means the fuel ran out.
-/

/-- Syntax of matchers built from the engine's constructors. -/
inductive PegExpr where
  | lit (x : Str)
  | rgx (f : Str → Option Nat)
  | nonterm (n : String)
  | andNext (e : PegExpr)
  | notNext (e : PegExpr)
  | seq (es : List PegExpr)
  | alt (es : List PegExpr)
  | opt (e : PegExpr)
  | rep0 (e : PegExpr) (d : Option PegExpr)
  | rep1 (e : PegExpr) (d : Option PegExpr)
  | valFix (v : PValue) (e : PegExpr)
  | valMap (fn : PValue → PValue) (e : PegExpr)

/-- A grammar: the Python `dict` mapping symbol names to matchers, looked up
at call time. -/
abbrev Grammar := List (String × PegExpr)

/-- Interpreter result: `Option.none` = fuel exhausted. -/
abbrev DRes := Option MRes

mutual

/-- Interpreter for constructor-built matchers, mirroring each Python
`match_*` closure; the grammar is consulted only by `nonterm`, at call time. -/
def interp (g : Grammar) : Nat → PegExpr → Str → DRes
  | 0, _, _ => none
  | _ + 1, .lit x, s =>
    some (if s.take x.length = x then .ok (some (s.drop x.length, .str x)) else .ok none)
  | _ + 1, .rgx f, s =>
    some (match f s with
          | some n => .ok (some (s.drop n, .str (s.take n)))
          | none => .ok none)
  | fuel + 1, .nonterm n, s =>
    match List.lookup n g with
    | none => some (.error (.keyError n))
    | some e => interp g fuel e s
  | fuel + 1, .andNext e, s =>
    match interp g fuel e s with
    | none => none
    | some (.error er) => some (.error er)
    | some (.ok (some _)) => some (.ok (some (s, .ignore)))
    | some (.ok none) => some (.ok none)
  | fuel + 1, .notNext e, s =>
    match interp g fuel e s with
    | none => none
    | some (.error er) => some (.error er)
    | some (.ok (some _)) => some (.ok none)
    | some (.ok none) => some (.ok (some (s, .ignore)))
  | fuel + 1, .seq es, s => iSeq g fuel es s []
  | fuel + 1, .alt es, s => iAlt g fuel es s
  | fuel + 1, .opt e, s =>
    match interp g fuel e s with
    | none => none
    | some (.error er) => some (.error er)
    | some (.ok (some r)) => some (.ok (some r))
    | some (.ok none) => some (.ok (some (s, .ignore)))
  | fuel + 1, .rep0 e d, s =>
    match interp g fuel e s with
    | none => none
    | some (.error er) => some (.error er)
    | some (.ok none) => some (.ok (some (s, .ignore)))
    | some (.ok (some r)) => iRep0 g fuel e d r []
  | fuel + 1, .rep1 e d, s =>
    match interp g fuel e s with
    | none => none
    | some (.error er) => some (.error er)
    | some (.ok none) => some (.ok none)
    | some (.ok (some r)) => iRep1 g fuel e d r []
  | fuel + 1, .valFix v e, s =>
    match interp g fuel e s with
    | none => none
    | some (.error er) => some (.error er)
    | some (.ok none) => some (.ok none)
    | some (.ok (some (r, _))) => some (.ok (some (r, v)))
  | fuel + 1, .valMap fn e, s =>
    match interp g fuel e s with
    | none => none
    | some (.error er) => some (.error er)
    | some (.ok none) => some (.ok none)
    | some (.ok (some (r, obj))) => some (.ok (some (r, fn obj)))

/-- The `for e in es` loop of `match_sequence` over constructor-built parts. -/
def iSeq (g : Grammar) : Nat → List PegExpr → Str → List PValue → DRes
  | 0, _, _, _ => none
  | _ + 1, [], s, data => some (.ok (some (s, .list data)))
  | fuel + 1, e :: es, s, data =>
    match interp g fuel e s with
    | none => none
    | some (.error er) => some (.error er)
    | some (.ok none) => some (.ok none)
    | some (.ok (some (s', obj))) => iSeq g fuel es s' (keep data obj)

/-- The `for e in es` loop of `match_choice` over constructor-built parts. -/
def iAlt (g : Grammar) : Nat → List PegExpr → Str → DRes
  | 0, _, _ => none
  | _ + 1, [], _ => some (.ok none)
  | fuel + 1, e :: es, s =>
    match interp g fuel e s with
    | none => none
    | some (.error er) => some (.error er)
    | some (.ok (some r)) => some (.ok (some r))
    | some (.ok none) => iAlt g fuel es s

/-- The `while` loop of `match_zero_or_more` over constructor-built parts. -/
def iRep0 (g : Grammar) : Nat → PegExpr → Option PegExpr → Str × PValue → List PValue → DRes
  | 0, _, _, _, _ => none
  | fuel + 1, e, d, (s, obj), data =>
    match d with
    | some dm =>
      match interp g fuel dm s with
      | none => none
      | some (.error er) => some (.error er)
      | some (.ok none) => some (.ok (some (s, .list (keep data obj))))
      | some (.ok (some (s1, objd))) =>
        match interp g fuel e s1 with
        | none => none
        | some (.error er) => some (.error er)
        | some (.ok none) => some (.ok (some (s1, .list (keep (keep data obj) objd))))
        | some (.ok (some r)) => iRep0 g fuel e d r (keep (keep data obj) objd)
    | none =>
      match interp g fuel e s with
      | none => none
      | some (.error er) => some (.error er)
      | some (.ok none) => some (.ok (some (s, .list (keep data obj))))
      | some (.ok (some r)) => iRep0 g fuel e d r (keep data obj)

/-- The `while` loop of `match_one_or_more` over constructor-built parts,
including the `NameError` raised by the undefined `accumulate`. -/
def iRep1 (g : Grammar) : Nat → PegExpr → Option PegExpr → Str × PValue → List PValue → DRes
  | 0, _, _, _, _ => none
  | fuel + 1, e, d, (s, obj), data =>
    match obj with
    | .ignore =>
      match d with
      | some dm =>
        match interp g fuel dm s with
        | none => none
        | some (.error er) => some (.error er)
        | some (.ok none) => some (.ok (some (s, .list data)))
        | some (.ok (some (s1, objd))) =>
          match interp g fuel e s1 with
          | none => none
          | some (.error er) => some (.error er)
          | some (.ok none) => some (.ok (some (s1, .list (keep data objd))))
          | some (.ok (some r)) => iRep1 g fuel e d r (keep data objd)
      | none =>
        match interp g fuel e s with
        | none => none
        | some (.error er) => some (.error er)
        | some (.ok none) => some (.ok (some (s, .list data)))
        | some (.ok (some r)) => iRep1 g fuel e d r data
    | _ => some (.error (.nameError "accumulate"))

end

/-- The `Peg` class: a grammar and a start symbol name. -/
structure Peg where
  grammar : Grammar
  start : String

/-- `Peg.parse`: `result = self.grammar[self.start](s, self.grammar)`;
`grm[start]` raises `KeyError` when the start symbol is undefined; `result`
is a 2-tuple or `None`, and a 2-tuple is always truthy, so `if result:`
returns `result[1]` exactly when the match succeeded, and the method
otherwise falls through returning Python `None`. -/
def Peg.parse (p : Peg) (fuel : Nat) (s : Str) : Option (Except PegError PValue) :=
  match List.lookup p.start p.grammar with
  | none => some (.error (.keyError p.start))
  | some e =>
    match interp p.grammar fuel e s with
    | none => none
    | some (.error er) => some (.error er)
    | some (.ok none) => some (.ok PValue.none)
    | some (.ok (some (_, v))) => some (.ok v)

example : match_literal ['a'] ['a', 'b'] = .ok (some (['b'], .str ['a'])) := by
  simp [match_literal]

example : match_one_or_more (match_literal ['a']) none 3 ['a'] =
    some (.error (.nameError "accumulate")) := rfl

example : match_zero_or_more (match_literal ['a']) none 3 ['a', 'a'] =
    some (.ok (some ([], .list [.str ['a'], .str ['a']]))) := rfl

example : interp [("start", .lit ['a'])] 3 (.nonterm "start") ['a', 'b'] =
    some (.ok (some (['b'], .str ['a']))) := rfl

example : Peg.parse ⟨[("start", .lit ['a'])], "start"⟩ 3 ['a', 'b'] =
    some (.ok (.str ['a'])) := rfl

/-! ## Helper lemmas -/

theorem keep_ignore (data : List PValue) : keep data .ignore = data := rfl

theorem keep_of_ne (data : List PValue) (obj : PValue) (h : obj ≠ .ignore) :
    keep data obj = data ++ [obj] := by
  cases obj
  · exact absurd rfl h
  all_goals rfl

theorem ignore_not_mem_keep (data : List PValue) (obj : PValue)
    (h : PValue.ignore ∉ data) : PValue.ignore ∉ keep data obj := by
  cases obj <;> simp_all [keep]

/-- Boolean test «is not the Ignore singleton», used to phrase the
filtered value lists of the collection combinators. -/
def not_ignore : PValue → Bool
  | .ignore => false
  | _ => true

/-! ## C1: one_or_more -/

/-- C1: `one_or_more(e)` is claimed to succeed and collect values like
`zero_or_more` whenever `e` matches at least once; instead, the very first
successful repetition with a non-`Ignore` value executes
`accumulate(data, obj)`, and `accumulate` is not defined anywhere in the
module, so the call raises `NameError` rather than producing a value list.
Evaluation at the failing input `one_or_more(literal('a'))` on `"a"`. -/
theorem one_or_more_raises_name_error :
    match_one_or_more (match_literal ['a']) none 3 ['a'] =
      some (.error (.nameError "accumulate")) ∧
    match_zero_or_more (match_literal ['a']) none 3 ['a'] =
      some (.ok (some ([], .list [.str ['a']]))) := ⟨rfl, rfl⟩

/-! ## C3: choice -/

/-- C3: `choice(a, b)` on `s` returns `a`'s result whenever `a` succeeds on
`s`; when `a` fails it returns exactly the result of running `b` on the
original, unconsumed `s`; and it fails precisely when both `a` and `b` fail
on `s`. -/
theorem choice_semantics (a b : Matcher) (s : Str) :
    (∀ r, a s = .ok (some r) → match_choice [a, b] s = .ok (some r)) ∧
    (a s = .ok none → match_choice [a, b] s = b s) ∧
    (match_choice [a, b] s = .ok none ↔ a s = .ok none ∧ b s = .ok none) := by
  refine ⟨?_, ?_, ?_⟩
  · intro r h
    simp [match_choice, h]
  · intro h
    simp only [match_choice, h]
    cases hb : b s with
    | error er => simp [match_choice, hb]
    | ok o => cases o <;> simp [match_choice, hb]
  · cases ha : a s with
    | error er => simp [match_choice, ha]
    | ok o =>
      cases o with
      | some r => simp [match_choice, ha]
      | none =>
        simp only [match_choice, ha]
        cases hb : b s with
        | error er => simp [match_choice, hb]
        | ok o2 => cases o2 <;> simp [match_choice, hb]

/-- Witness for C3 at `a = literal('a')`, `b = literal('b')`, `s = "b"`. -/
theorem choice_semantics_witness :
    match_choice [match_literal ['a'], match_literal ['b']] ['b'] =
      match_literal ['b'] ['b'] :=
  (choice_semantics (match_literal ['a']) (match_literal ['b']) ['b']).2.1 rfl

/-! ## C4: sequence -/

/-- C4: `sequence(a, b)` succeeds exactly when `a` succeeds on `s` and `b`
succeeds on `a`'s remainder; the produced value is the ordered list of the
two sub-values with `Ignore` entries removed; it fails exactly when either
part fails. -/
theorem sequence_semantics (a b : Matcher) (s : Str) :
    (∀ r1 v1 r2 v2, a s = .ok (some (r1, v1)) → b r1 = .ok (some (r2, v2)) →
      match_sequence [a, b] s =
        .ok (some (r2, .list (List.filter not_ignore [v1, v2])))) ∧
    (a s = .ok none → match_sequence [a, b] s = .ok none) ∧
    (∀ r1 v1, a s = .ok (some (r1, v1)) → b r1 = .ok none →
      match_sequence [a, b] s = .ok none) ∧
    (match_sequence [a, b] s = .ok none ↔
      a s = .ok none ∨ ∃ r1 v1, a s = .ok (some (r1, v1)) ∧ b r1 = .ok none) := by
  refine ⟨?_, ?_, ?_, ?_⟩
  · intro r1 v1 r2 v2 h1 h2
    simp only [match_sequence, seq_go, h1, h2]
    cases v1 <;> cases v2 <;> simp [keep, not_ignore, List.filter]
  · intro h
    simp [match_sequence, seq_go, h]
  · intro r1 v1 h1 h2
    simp [match_sequence, seq_go, h1, h2]
  · cases ha : a s with
    | error er => simp [match_sequence, seq_go, ha]
    | ok o =>
      cases o with
      | none => simp [match_sequence, seq_go, ha]
      | some rv1 =>
        obtain ⟨r1, v1⟩ := rv1
        simp only [match_sequence, seq_go, ha]
        cases hb : b r1 with
        | error er => simp [hb, ha]
        | ok o2 =>
          cases o2 with
          | none => simp [seq_go, hb, ha]
          | some rv2 =>
            obtain ⟨r2, v2⟩ := rv2
            simp [seq_go, hb, ha]

/-- Witness for C4 at `a = literal('a')`, `b = literal('b')`,
`s = "abc"`. -/
theorem sequence_semantics_witness :
    match_sequence [match_literal ['a'], match_literal ['b']] ['a', 'b', 'c'] =
      .ok (some (['c'],
        .list (List.filter not_ignore [.str ['a'], .str ['b']]))) :=
  (sequence_semantics (match_literal ['a']) (match_literal ['b'])
    ['a', 'b', 'c']).1 ['b', 'c'] (.str ['a']) ['c'] (.str ['b']) rfl rfl

/-! ## C2: zero_or_more -/

/-- `literal('a', value=Ignore)`: a legitimate engine matcher (the valuemap
wrapper with the non-callable replacement value `Ignore`), idiomatic for
punctuation that should contribute no value. -/
def lit_a_ignore : Matcher := valued_fix .ignore (match_literal ['a'])

/-- C2 counterexample: on input `"a"` one repetition of `lit_a_ignore`
matches (it consumes the `'a'` and succeeds), yet the value produced by
`zero_or_more` is the *empty* list `[]`, which is neither the `Ignore`
marker nor a non-empty list — refuting «a non-empty ordered list of the
collected non-Omitted values when one or more repetitions match». -/
theorem zero_or_more_nonempty_counterexample :
    lit_a_ignore ['a'] = .ok (some ([], .ignore)) ∧
    match_zero_or_more lit_a_ignore none 3 ['a'] =
      some (.ok (some ([], .list []))) ∧
    (PValue.list [] ≠ .ignore) :=
  ⟨rfl, rfl, fun h => nomatch h⟩

/-- One-step unfolding of the `zero_or_more` loop without a delimiter. -/
theorem zom_loop_succ_none (e : Matcher) (fuel : Nat) (s : Str)
    (obj : PValue) (data : List PValue) :
    zom_loop e none (fuel + 1) (s, obj) data =
      match e s with
      | .error er => some (.error er)
      | .ok none => some (.ok (some (s, .list (keep data obj))))
      | .ok (some r) => zom_loop e none fuel r (keep data obj) := rfl

/-- One-step unfolding of the `zero_or_more` loop with a delimiter. -/
theorem zom_loop_succ_some (e dm : Matcher) (fuel : Nat) (s : Str)
    (obj : PValue) (data : List PValue) :
    zom_loop e (some dm) (fuel + 1) (s, obj) data =
      match dm s with
      | .error er => some (.error er)
      | .ok none => some (.ok (some (s, .list (keep data obj))))
      | .ok (some (s1, objd)) =>
        match e s1 with
        | .error er => some (.error er)
        | .ok none => some (.ok (some (s1, .list (keep (keep data obj) objd))))
        | .ok (some r) => zom_loop e (some dm) fuel r (keep (keep data obj) objd) :=
  rfl

theorem zom_loop_ok_shape (e : Matcher) (d : Option Matcher) :
    ∀ fuel s obj data o, zom_loop e d fuel (s, obj) data = some (.ok o) →
      PValue.ignore ∉ data → ∃ r l, o = some (r, .list l) ∧ PValue.ignore ∉ l := by
  intro fuel
  induction fuel with
  | zero => intro s obj data o h; exact absurd h (by simp [zom_loop])
  | succ fuel ih =>
    intro s obj data o h hni
    cases d with
    | none =>
      rw [zom_loop_succ_none] at h
      cases he : e s with
      | error er => simp [he] at h
      | ok o1 =>
        cases o1 with
        | none =>
          simp only [he, Option.some.injEq, Except.ok.injEq] at h
          exact ⟨s, keep data obj, h.symm, ignore_not_mem_keep data obj hni⟩
        | some r1 =>
          obtain ⟨s1, o1⟩ := r1
          simp only [he] at h
          exact ih s1 o1 (keep data obj) o h (ignore_not_mem_keep data obj hni)
    | some dm =>
      rw [zom_loop_succ_some] at h
      cases hd : dm s with
      | error er => simp [hd] at h
      | ok od =>
        cases od with
        | none =>
          simp only [hd, Option.some.injEq, Except.ok.injEq] at h
          exact ⟨s, keep data obj, h.symm, ignore_not_mem_keep data obj hni⟩
        | some rd =>
          obtain ⟨s1, objd⟩ := rd
          simp only [hd] at h
          cases he : e s1 with
          | error er => simp [he] at h
          | ok o2 =>
            cases o2 with
            | none =>
              simp only [he, Option.some.injEq, Except.ok.injEq] at h
              exact ⟨s1, keep (keep data obj) objd, h.symm,
                ignore_not_mem_keep _ objd (ignore_not_mem_keep data obj hni)⟩
            | some r2 =>
              obtain ⟨s2, o2⟩ := r2
              simp only [he] at h
              exact ih s2 o2 (keep (keep data obj) objd) o h
                (ignore_not_mem_keep _ objd (ignore_not_mem_keep data obj hni))

/-- C2 amended: `zero_or_more(e, d)` never returns the match-failure value;
when it succeeds, the value is the `Ignore` marker exactly when zero
repetitions matched (first `e` attempt failed, remainder untouched), and
otherwise an ordered — possibly empty — list containing no `Ignore`
entries (the collected non-`Ignore` values). -/
theorem zero_or_more_value_shape (e : Matcher) (d : Option Matcher)
    (fuel : Nat) (s : Str) :
    match_zero_or_more e d fuel s ≠ some (.ok none) ∧
    (∀ r v, match_zero_or_more e d fuel s = some (.ok (some (r, v))) →
      (e s = .ok none ∧ r = s ∧ v = .ignore) ∨
      ∃ l, v = .list l ∧ PValue.ignore ∉ l) := by
  constructor
  · intro h
    rw [match_zero_or_more] at h
    cases he : e s with
    | error er => simp [he] at h
    | ok o =>
      cases o with
      | none => simp [he] at h
      | some r1 =>
        obtain ⟨s1, o1⟩ := r1
        rw [he] at h
        obtain ⟨r, l, hrl, -⟩ :=
          zom_loop_ok_shape e d fuel s1 o1 [] none h (by simp)
        exact nomatch hrl
  · intro r v h
    rw [match_zero_or_more] at h
    cases he : e s with
    | error er => simp [he] at h
    | ok o =>
      cases o with
      | none =>
        simp only [he, Option.some.injEq, Except.ok.injEq, Prod.mk.injEq] at h
        exact Or.inl ⟨rfl, h.1.symm, h.2.symm⟩
      | some r1 =>
        obtain ⟨s1, o1⟩ := r1
        rw [he] at h
        obtain ⟨r', l, hrl, hni⟩ :=
          zom_loop_ok_shape e d fuel s1 o1 [] _ h (by simp)
        obtain ⟨-, hv⟩ := Prod.mk.injEq .. ▸ (Option.some.injEq .. ▸ hrl)
        exact Or.inr ⟨l, hv ▸ rfl, hni⟩

/-- Witness for C2 (amended) at `e = literal('a')`, `s = "aa"`: two
repetitions match and the produced value is the list of both matched
strings, with no `Ignore` entries. -/
theorem zero_or_more_value_shape_witness :
    (match_literal ['a'] ['a', 'a'] = .ok none ∧ ([] : Str) = ['a', 'a'] ∧
        PValue.list [.str ['a'], .str ['a']] = .ignore) ∨
    ∃ l, PValue.list [.str ['a'], .str ['a']] = .list l ∧
      PValue.ignore ∉ l :=
  (zero_or_more_value_shape (match_literal ['a']) none 3 ['a', 'a']).2
    [] (.list [.str ['a'], .str ['a']]) rfl

/-! ## C7: zero_or_more with a trailing delimiter -/

/-- C7: inside the repetition loop of `zero_or_more(e, d)` (so after at
least one repetition of `e` has matched, the loop state carrying the last
pair `(s, obj)` and the collected `data`): when the delimiter succeeds on
`s` leaving remainder `r` with value `v` and `e` then fails on `r`, the
loop stops and the overall result is a success whose remainder is `r` — the
trailing delimiter's consumption is kept — and whose list receives `v`
exactly when `v` is not the `Ignore` marker. -/
theorem zero_or_more_trailing_delimiter (e dm : Matcher) (fuel : Nat)
    (s r : Str) (obj v : PValue) (data : List PValue)
    (hd : dm s = .ok (some (r, v))) (he : e r = .ok none) :
    zom_loop e (some dm) (fuel + 1) (s, obj) data =
      some (.ok (some (r, .list (keep (keep data obj) v)))) ∧
    (v = .ignore → keep (keep data obj) v = keep data obj) ∧
    (v ≠ .ignore → keep (keep data obj) v = keep data obj ++ [v]) :=
  ⟨by rw [zom_loop_succ_some]; simp only [hd, he],
   fun hv => hv ▸ keep_ignore (keep data obj),
   fun hv => keep_of_ne (keep data obj) v hv⟩

/-- Witness for C7: `zero_or_more(literal('a'), literal(','))` mid-loop on
`"​,a,b"`-style state: delimiter `','` matches, then `e` fails on `"b"`, so
the loop keeps the delimiter's remainder. -/
theorem zero_or_more_trailing_delimiter_witness :
    zom_loop (match_literal ['a']) (some (match_literal [',']))
        3 ([',', 'b'], PValue.str ['a']) [] =
      some (.ok (some (['b'],
        .list (keep (keep [] (PValue.str ['a'])) (.str [',']))))) :=
  (zero_or_more_trailing_delimiter (match_literal ['a']) (match_literal [','])
    2 [',', 'b'] ['b'] (.str ['a']) (.str [',']) [] rfl rfl).1

/-! ## C10: termination of the repetition loops -/

/-- One-step unfolding of the `one_or_more` loop without a delimiter, in the
only state that does not raise the `accumulate` NameError. -/
theorem oom_loop_succ_none (e : Matcher) (fuel : Nat) (s : Str)
    (data : List PValue) :
    oom_loop e none (fuel + 1) (s, .ignore) data =
      match e s with
      | .error er => some (.error er)
      | .ok none => some (.ok (some (s, .list data)))
      | .ok (some r) => oom_loop e none fuel r data := rfl

/-- One-step unfolding of the `one_or_more` loop with a delimiter, in the
only state that does not raise the `accumulate` NameError. -/
theorem oom_loop_succ_some (e dm : Matcher) (fuel : Nat) (s : Str)
    (data : List PValue) :
    oom_loop e (some dm) (fuel + 1) (s, .ignore) data =
      match dm s with
      | .error er => some (.error er)
      | .ok none => some (.ok (some (s, .list data)))
      | .ok (some (s1, objd)) =>
        match e s1 with
        | .error er => some (.error er)
        | .ok none => some (.ok (some (s1, .list (keep data objd))))
        | .ok (some r) => oom_loop e (some dm) fuel r (keep data objd) := rfl

/-- In any state whose value is not the `Ignore` singleton, the
`one_or_more` loop raises the `accumulate` NameError at once. -/
theorem oom_loop_succ_accumulate (e : Matcher) (d : Option Matcher)
    (fuel : Nat) (s : Str) (obj : PValue) (data : List PValue)
    (h : obj ≠ .ignore) :
    oom_loop e d (fuel + 1) (s, obj) data =
      some (.error (.nameError "accumulate")) := by
  cases obj
  · exact absurd rfl h
  all_goals rfl

/-- Every success of the matcher strictly shortens the remainder. -/
def Shortens (m : Matcher) : Prop :=
  ∀ s r v, m s = .ok (some (r, v)) → r.length < s.length

theorem zom_loop_total (e : Matcher) (d : Option Matcher)
    (he : Shortens e) (hd : ∀ dm, d = some dm → Shortens dm) :
    ∀ fuel s obj data, s.length < fuel →
      zom_loop e d fuel (s, obj) data ≠ none := by
  intro fuel
  induction fuel with
  | zero => intro s obj data hlen; omega
  | succ fuel ih =>
    intro s obj data hlen h
    cases d with
    | none =>
      rw [zom_loop_succ_none] at h
      cases hes : e s with
      | error er => simp [hes] at h
      | ok o =>
        cases o with
        | none => simp [hes] at h
        | some r1 =>
          obtain ⟨s1, o1⟩ := r1
          rw [hes] at h
          exact ih s1 o1 (keep data obj)
            (by have := he s s1 o1 hes; omega) h
    | some dm =>
      rw [zom_loop_succ_some] at h
      cases hds : dm s with
      | error er => simp [hds] at h
      | ok od =>
        cases od with
        | none => simp [hds] at h
        | some rd =>
          obtain ⟨s1, objd⟩ := rd
          simp only [hds] at h
          cases hes : e s1 with
          | error er => simp [hes] at h
          | ok o2 =>
            cases o2 with
            | none => simp [hes] at h
            | some r2 =>
              obtain ⟨s2, o2⟩ := r2
              simp only [hes] at h
              exact ih s2 o2 (keep (keep data obj) objd)
                (by have h1 := hd dm rfl s s1 objd hds
                    have h2 := he s1 s2 o2 hes
                    omega) h

theorem oom_loop_total (e : Matcher) (d : Option Matcher)
    (he : Shortens e) (hd : ∀ dm, d = some dm → Shortens dm) :
    ∀ fuel s obj data, s.length < fuel →
      oom_loop e d fuel (s, obj) data ≠ none := by
  intro fuel
  induction fuel with
  | zero => intro s obj data hlen; omega
  | succ fuel ih =>
    intro s obj data hlen h
    by_cases hobj : obj = PValue.ignore
    case neg =>
      rw [oom_loop_succ_accumulate e d fuel s obj data hobj] at h
      exact nomatch h
    case pos =>
      subst hobj
      cases d with
      | none =>
        rw [oom_loop_succ_none] at h
        cases hes : e s with
        | error er => simp [hes] at h
        | ok o =>
          cases o with
          | none => simp [hes] at h
          | some r1 =>
            obtain ⟨s1, o1⟩ := r1
            rw [hes] at h
            exact ih s1 o1 data (by have := he s s1 o1 hes; omega) h
      | some dm =>
        rw [oom_loop_succ_some] at h
        cases hds : dm s with
        | error er => simp [hds] at h
        | ok od =>
          cases od with
          | none => simp [hds] at h
          | some rd =>
            obtain ⟨s1, objd⟩ := rd
            simp only [hds] at h
            cases hes : e s1 with
            | error er => simp [hes] at h
            | ok o2 =>
              cases o2 with
              | none => simp [hes] at h
              | some r2 =>
                obtain ⟨s2, o2⟩ := r2
                simp only [hes] at h
                exact ih s2 o2 (keep data objd)
                  (by have h1 := hd dm rfl s s1 objd hds
                      have h2 := he s1 s2 o2 hes
                      omega) h

theorem zom_loop_stuck (e : Matcher) (s : Str) (v : PValue)
    (h : e s = .ok (some (s, v))) :
    ∀ fuel obj data, zom_loop e none fuel (s, obj) data = none := by
  intro fuel
  induction fuel with
  | zero => intro obj data; rfl
  | succ fuel ih =>
    intro obj data
    rw [zom_loop_succ_none, h]
    exact ih v (keep data obj)

theorem oom_loop_stuck (e : Matcher) (s : Str)
    (h : e s = .ok (some (s, .ignore))) :
    ∀ fuel data, oom_loop e none fuel (s, .ignore) data = none := by
  intro fuel
  induction fuel with
  | zero => intro data; rfl
  | succ fuel ih =>
    intro data
    rw [oom_loop_succ_none, h]
    exact ih data

/-- C10 counterexample: `e = and_next(literal('a'))` succeeds on `"a"` while
consuming nothing, yet `zero_or_more(e, delimiter=literal(','))` terminates
on `"a"` — the delimiter attempt fails, the loop breaks and returns — so
«if e can succeed while consuming nothing, the repetition loop never
terminates» is false as stated. -/
theorem repetition_nontermination_counterexample :
    match_and_next (match_literal ['a']) ['a'] = .ok (some (['a'], .ignore)) ∧
    match_zero_or_more (match_and_next (match_literal ['a']))
        (some (match_literal [','])) 3 ['a'] =
      some (.ok (some (['a'], .list []))) := ⟨rfl, rfl⟩

/-- C10 amended: the repetition loops terminate on every input when every
success of `e` — and of the delimiter, when one is supplied — strictly
shortens the remainder (fuel `≥ |s|` suffices, so the result is never the
out-of-fuel marker).  When `e` succeeds on the current remainder while
consuming nothing and no delimiter is supplied, the loop never terminates
(no amount of fuel completes it) — for `one_or_more` this holds when the
produced value is the `Ignore` marker; a non-`Ignore` value instead raises
the `accumulate` NameError.  With a delimiter, a failing delimiter attempt
still ends the loop (see the counterexample). -/
theorem repetition_termination (e : Matcher) (d : Option Matcher)
    (fuel : Nat) (s : Str) :
    (Shortens e → (∀ dm, d = some dm → Shortens dm) → s.length ≤ fuel →
      match_zero_or_more e d fuel s ≠ none ∧
      match_one_or_more e d fuel s ≠ none) ∧
    (∀ v, e s = .ok (some (s, v)) →
      match_zero_or_more e none fuel s = none) ∧
    (e s = .ok (some (s, .ignore)) →
      match_one_or_more e none fuel s = none) := by
  refine ⟨?_, ?_, ?_⟩
  · intro he hd hlen
    constructor
    · intro h
      rw [match_zero_or_more] at h
      cases hes : e s with
      | error er => simp [hes] at h
      | ok o =>
        cases o with
        | none => simp [hes] at h
        | some r1 =>
          obtain ⟨s1, o1⟩ := r1
          rw [hes] at h
          exact zom_loop_total e d he hd fuel s1 o1 []
            (by have := he s s1 o1 hes; omega) h
    · intro h
      rw [match_one_or_more] at h
      cases hes : e s with
      | error er => simp [hes] at h
      | ok o =>
        cases o with
        | none => simp [hes] at h
        | some r1 =>
          obtain ⟨s1, o1⟩ := r1
          rw [hes] at h
          exact oom_loop_total e d he hd fuel s1 o1 []
            (by have := he s s1 o1 hes; omega) h
  · intro v h
    rw [match_zero_or_more, h]
    exact zom_loop_stuck e s v h fuel v []
  · intro h
    rw [match_one_or_more, h]
    exact oom_loop_stuck e s h fuel []

/-- Witness for C10: an any-one-character matcher strictly shortens, so the
loops terminate on `"a"` with fuel 1; and a zero-width success makes the
no-delimiter `zero_or_more` loop spin out any amount of fuel. -/
theorem repetition_termination_witness :
    (match_zero_or_more
        (fun s => match s with
          | [] => .ok none
          | c :: rest => .ok (some (rest, .str [c]))) none 1 ['a'] ≠ none ∧
      match_one_or_more
        (fun s => match s with
          | [] => .ok none
          | c :: rest => .ok (some (rest, .str [c]))) none 1 ['a'] ≠ none) ∧
    match_zero_or_more (match_and_next (match_literal ['a'])) none 7 ['a'] =
      none := by
  constructor
  · exact (repetition_termination
      (fun s => match s with
        | [] => .ok none
        | c :: rest => .ok (some (rest, .str [c]))) none 1 ['a']).1
      (fun s r v h => by
        cases s with
        | nil => exact nomatch h
        | cons c rest =>
          simp only [Except.ok.injEq, Option.some.injEq, Prod.mk.injEq] at h
          simp [← h.1])
      (fun dm h => nomatch h) (by decide)
  · exact (repetition_termination (match_and_next (match_literal ['a']))
      none 7 ['a']).2.1 .ignore rfl

/-! ## C6: undefined nonterminal -/

/-- C6: invoking `nonterminal(n)` when `n` is not defined in the grammar
table executes `grm[n]`, which raises `KeyError` — a distinct failure
channel (a Python exception, surfacing a configuration error) and not the
ordinary match-failure value `None`, nor any match result at all. -/
theorem nonterminal_undefined_key_error (g : Grammar) (n : String) (s : Str)
    (fuel : Nat) (h : List.lookup n g = none) :
    interp g (fuel + 1) (.nonterm n) s = some (.error (.keyError n)) ∧
    ∀ r : Option (Str × PValue), (Except.error (.keyError n) : MRes) ≠ .ok r := by
  constructor
  · rw [interp, h]
  · intro r hc
    exact nomatch hc

/-- Witness for C6: the empty grammar does not define `"S"`. -/
theorem nonterminal_undefined_key_error_witness :
    interp [] 1 (.nonterm "S") ['a'] = some (.error (.keyError "S")) :=
  (nonterminal_undefined_key_error [] "S" ['a'] 0 rfl).1

/-! ## C8 and C9: the Peg driver -/

/-- C8: when the start matcher succeeds with remainder `r` and value `v`,
`Peg(g, k).parse(s)` returns `v` — with no condition on `r`, so a successful
partial match (non-empty remainder) is still reported as success. -/
theorem parse_partial_match_success (g : Grammar) (k : String) (s : Str)
    (fuel : Nat) (e : PegExpr) (r : Str) (v : PValue)
    (hk : List.lookup k g = some e)
    (hm : interp g fuel e s = some (.ok (some (r, v)))) :
    Peg.parse ⟨g, k⟩ fuel s = some (.ok v) := by
  rw [Peg.parse]
  simp only [hk, hm]

/-- Witness for C8: `literal('a')` on `"ab"` leaves the non-empty remainder
`"b"`, and `parse` still returns the matched value. -/
theorem parse_partial_match_success_witness :
    Peg.parse ⟨[("start", PegExpr.lit ['a'])], "start"⟩ 2 ['a', 'b'] =
      some (.ok (.str ['a'])) ∧ (['b'] : Str) ≠ [] :=
  ⟨parse_partial_match_success [("start", PegExpr.lit ['a'])] "start"
      ['a', 'b'] 2 (.lit ['a']) ['b'] (.str ['a']) rfl rfl,
   fun h => nomatch h⟩

/-- C9: `Peg.parse` returns Python `None` exactly when the start matcher
fails, or succeeds producing `None` as its value — so a caller cannot tell a
failed parse from a successful parse of a `null`-valued input. -/
theorem parse_conflates_failure_and_none (g : Grammar) (k : String)
    (e : PegExpr) (s : Str) (fuel : Nat) (hk : List.lookup k g = some e) :
    Peg.parse ⟨g, k⟩ fuel s = some (.ok PValue.none) ↔
      interp g fuel e s = some (.ok none) ∨
      ∃ r, interp g fuel e s = some (.ok (some (r, PValue.none))) := by
  rw [Peg.parse]
  simp only [hk]
  cases hm : interp g fuel e s with
  | none => simp
  | some x =>
    cases x with
    | error er => simp
    | ok o =>
      cases o with
      | none => simp
      | some rv =>
        obtain ⟨r, v⟩ := rv
        simp

/-- Witness for C9: a grammar whose start rule replaces the matched text by
Python `None` (`literal('a', value=None)`); the parse succeeds yet returns
`None`, indistinguishable from a failed parse. -/
theorem parse_conflates_failure_and_none_witness :
    Peg.parse ⟨[("start", PegExpr.valFix PValue.none (.lit ['a']))],
        "start"⟩ 3 ['a'] = some (.ok PValue.none) ↔
      interp [("start", PegExpr.valFix PValue.none (.lit ['a']))] 3
          (.valFix PValue.none (.lit ['a'])) ['a'] = some (.ok none) ∨
      ∃ r, interp [("start", PegExpr.valFix PValue.none (.lit ['a']))] 3
          (.valFix PValue.none (.lit ['a'])) ['a'] =
        some (.ok (some (r, PValue.none))) :=
  parse_conflates_failure_and_none
    [("start", PegExpr.valFix PValue.none (.lit ['a']))] "start"
    (.valFix PValue.none (.lit ['a'])) ['a'] 3 rfl

/-! ## C5: the remainder is always a suffix of the input

Step equations for the interpreter (all definitional). -/

theorem interp_zero (g : Grammar) (e : PegExpr) (s : Str) :
    interp g 0 e s = none := rfl

theorem interp_lit (g : Grammar) (fuel : Nat) (x : Str) (s : Str) :
    interp g (fuel + 1) (.lit x) s =
      some (if s.take x.length = x then
        .ok (some (s.drop x.length, .str x)) else .ok none) := rfl

theorem interp_rgx (g : Grammar) (fuel : Nat) (f : Str → Option Nat) (s : Str) :
    interp g (fuel + 1) (.rgx f) s =
      some (match f s with
            | some n => .ok (some (s.drop n, .str (s.take n)))
            | none => .ok none) := rfl

theorem interp_nonterm (g : Grammar) (fuel : Nat) (n : String) (s : Str) :
    interp g (fuel + 1) (.nonterm n) s =
      match List.lookup n g with
      | none => some (.error (.keyError n))
      | some e => interp g fuel e s := rfl

theorem interp_and_next (g : Grammar) (fuel : Nat) (e : PegExpr) (s : Str) :
    interp g (fuel + 1) (.andNext e) s =
      match interp g fuel e s with
      | none => none
      | some (.error er) => some (.error er)
      | some (.ok (some _)) => some (.ok (some (s, .ignore)))
      | some (.ok none) => some (.ok none) := rfl

theorem interp_not_next (g : Grammar) (fuel : Nat) (e : PegExpr) (s : Str) :
    interp g (fuel + 1) (.notNext e) s =
      match interp g fuel e s with
      | none => none
      | some (.error er) => some (.error er)
      | some (.ok (some _)) => some (.ok none)
      | some (.ok none) => some (.ok (some (s, .ignore))) := rfl

theorem interp_seq (g : Grammar) (fuel : Nat) (es : List PegExpr) (s : Str) :
    interp g (fuel + 1) (.seq es) s = iSeq g fuel es s [] := rfl

theorem interp_alt (g : Grammar) (fuel : Nat) (es : List PegExpr) (s : Str) :
    interp g (fuel + 1) (.alt es) s = iAlt g fuel es s := rfl

theorem interp_opt (g : Grammar) (fuel : Nat) (e : PegExpr) (s : Str) :
    interp g (fuel + 1) (.opt e) s =
      match interp g fuel e s with
      | none => none
      | some (.error er) => some (.error er)
      | some (.ok (some r)) => some (.ok (some r))
      | some (.ok none) => some (.ok (some (s, .ignore))) := rfl

theorem interp_rep0 (g : Grammar) (fuel : Nat) (e : PegExpr)
    (d : Option PegExpr) (s : Str) :
    interp g (fuel + 1) (.rep0 e d) s =
      match interp g fuel e s with
      | none => none
      | some (.error er) => some (.error er)
      | some (.ok none) => some (.ok (some (s, .ignore)))
      | some (.ok (some r)) => iRep0 g fuel e d r [] := rfl

theorem interp_rep1 (g : Grammar) (fuel : Nat) (e : PegExpr)
    (d : Option PegExpr) (s : Str) :
    interp g (fuel + 1) (.rep1 e d) s =
      match interp g fuel e s with
      | none => none
      | some (.error er) => some (.error er)
      | some (.ok none) => some (.ok none)
      | some (.ok (some r)) => iRep1 g fuel e d r [] := rfl

theorem interp_val_fix (g : Grammar) (fuel : Nat) (v : PValue)
    (e : PegExpr) (s : Str) :
    interp g (fuel + 1) (.valFix v e) s =
      match interp g fuel e s with
      | none => none
      | some (.error er) => some (.error er)
      | some (.ok none) => some (.ok none)
      | some (.ok (some (r, _))) => some (.ok (some (r, v))) := rfl

theorem interp_val_map (g : Grammar) (fuel : Nat) (fn : PValue → PValue)
    (e : PegExpr) (s : Str) :
    interp g (fuel + 1) (.valMap fn e) s =
      match interp g fuel e s with
      | none => none
      | some (.error er) => some (.error er)
      | some (.ok none) => some (.ok none)
      | some (.ok (some (r, obj))) => some (.ok (some (r, fn obj))) := rfl

theorem iSeq_zero (g : Grammar) (es : List PegExpr) (s : Str)
    (data : List PValue) : iSeq g 0 es s data = none := rfl

theorem iSeq_nil (g : Grammar) (fuel : Nat) (s : Str) (data : List PValue) :
    iSeq g (fuel + 1) [] s data = some (.ok (some (s, .list data))) := rfl

theorem iSeq_cons (g : Grammar) (fuel : Nat) (e : PegExpr)
    (es : List PegExpr) (s : Str) (data : List PValue) :
    iSeq g (fuel + 1) (e :: es) s data =
      match interp g fuel e s with
      | none => none
      | some (.error er) => some (.error er)
      | some (.ok none) => some (.ok none)
      | some (.ok (some (s', obj))) => iSeq g fuel es s' (keep data obj) := rfl

theorem iAlt_zero (g : Grammar) (es : List PegExpr) (s : Str) :
    iAlt g 0 es s = none := rfl

theorem iAlt_nil (g : Grammar) (fuel : Nat) (s : Str) :
    iAlt g (fuel + 1) [] s = some (.ok none) := rfl

theorem iAlt_cons (g : Grammar) (fuel : Nat) (e : PegExpr)
    (es : List PegExpr) (s : Str) :
    iAlt g (fuel + 1) (e :: es) s =
      match interp g fuel e s with
      | none => none
      | some (.error er) => some (.error er)
      | some (.ok (some r)) => some (.ok (some r))
      | some (.ok none) => iAlt g fuel es s := rfl

theorem iRep0_zero (g : Grammar) (e : PegExpr) (d : Option PegExpr)
    (sv : Str × PValue) (data : List PValue) :
    iRep0 g 0 e d sv data = none := rfl

theorem iRep0_succ_none (g : Grammar) (fuel : Nat) (e : PegExpr) (s : Str)
    (obj : PValue) (data : List PValue) :
    iRep0 g (fuel + 1) e none (s, obj) data =
      match interp g fuel e s with
      | none => none
      | some (.error er) => some (.error er)
      | some (.ok none) => some (.ok (some (s, .list (keep data obj))))
      | some (.ok (some r)) => iRep0 g fuel e none r (keep data obj) := rfl

theorem iRep0_succ_some (g : Grammar) (fuel : Nat) (e dm : PegExpr) (s : Str)
    (obj : PValue) (data : List PValue) :
    iRep0 g (fuel + 1) e (some dm) (s, obj) data =
      match interp g fuel dm s with
      | none => none
      | some (.error er) => some (.error er)
      | some (.ok none) => some (.ok (some (s, .list (keep data obj))))
      | some (.ok (some (s1, objd))) =>
        match interp g fuel e s1 with
        | none => none
        | some (.error er) => some (.error er)
        | some (.ok none) => some (.ok (some (s1, .list (keep (keep data obj) objd))))
        | some (.ok (some r)) => iRep0 g fuel e (some dm) r (keep (keep data obj) objd) :=
  rfl

theorem iRep1_zero (g : Grammar) (e : PegExpr) (d : Option PegExpr)
    (sv : Str × PValue) (data : List PValue) :
    iRep1 g 0 e d sv data = none := rfl

theorem iRep1_succ_none (g : Grammar) (fuel : Nat) (e : PegExpr) (s : Str)
    (data : List PValue) :
    iRep1 g (fuel + 1) e none (s, .ignore) data =
      match interp g fuel e s with
      | none => none
      | some (.error er) => some (.error er)
      | some (.ok none) => some (.ok (some (s, .list data)))
      | some (.ok (some r)) => iRep1 g fuel e none r data := rfl

theorem iRep1_succ_some (g : Grammar) (fuel : Nat) (e dm : PegExpr) (s : Str)
    (data : List PValue) :
    iRep1 g (fuel + 1) e (some dm) (s, .ignore) data =
      match interp g fuel dm s with
      | none => none
      | some (.error er) => some (.error er)
      | some (.ok none) => some (.ok (some (s, .list data)))
      | some (.ok (some (s1, objd))) =>
        match interp g fuel e s1 with
        | none => none
        | some (.error er) => some (.error er)
        | some (.ok none) => some (.ok (some (s1, .list (keep data objd))))
        | some (.ok (some r)) => iRep1 g fuel e (some dm) r (keep data objd) :=
  rfl

theorem iRep1_succ_accumulate (g : Grammar) (fuel : Nat) (e : PegExpr)
    (d : Option PegExpr) (s : Str) (obj : PValue) (data : List PValue)
    (h : obj ≠ .ignore) :
    iRep1 g (fuel + 1) e d (s, obj) data =
      some (.error (.nameError "accumulate")) := by
  cases obj
  · exact absurd rfl h
  all_goals rfl

/-- Joint suffix invariant for the interpreter and its loops, by induction
on fuel: every successful result's remainder is a suffix of the input the
function was given. -/
theorem suffix_joint (g : Grammar) : ∀ fuel : Nat,
    (∀ e s r v, interp g fuel e s = some (.ok (some (r, v))) → r <:+ s) ∧
    (∀ es s data r v, iSeq g fuel es s data = some (.ok (some (r, v))) →
      r <:+ s) ∧
    (∀ es s r v, iAlt g fuel es s = some (.ok (some (r, v))) → r <:+ s) ∧
    (∀ e d s obj data r v,
      iRep0 g fuel e d (s, obj) data = some (.ok (some (r, v))) → r <:+ s) ∧
    (∀ e d s obj data r v,
      iRep1 g fuel e d (s, obj) data = some (.ok (some (r, v))) → r <:+ s) := by
  intro fuel
  induction fuel with
  | zero =>
    refine ⟨?_, ?_, ?_, ?_, ?_⟩
    · exact fun e s r v h => nomatch h
    · exact fun es s data r v h => nomatch h
    · exact fun es s r v h => nomatch h
    · exact fun e d s obj data r v h => nomatch h
    · exact fun e d s obj data r v h => nomatch h
  | succ fuel ih =>
    obtain ⟨ihE, ihS, ihA, ih0, ih1⟩ := ih
    refine ⟨?_, ?_, ?_, ?_, ?_⟩
    · intro e s r v h
      cases e with
      | lit x =>
        rw [interp_lit] at h
        split at h
        · simp only [Option.some.injEq, Except.ok.injEq, Prod.mk.injEq] at h
          obtain ⟨rfl, rfl⟩ := h
          exact List.drop_suffix _ _
        · simp at h
      | rgx f =>
        rw [interp_rgx] at h
        cases hf : f s with
        | none => simp [hf] at h
        | some n =>
          simp only [hf, Option.some.injEq, Except.ok.injEq,
            Prod.mk.injEq] at h
          obtain ⟨rfl, rfl⟩ := h
          exact List.drop_suffix _ _
      | nonterm n =>
        rw [interp_nonterm] at h
        cases hl : List.lookup n g with
        | none => simp [hl] at h
        | some e1 =>
          simp only [hl] at h
          exact ihE e1 s r v h
      | andNext e1 =>
        rw [interp_and_next] at h
        cases hE : interp g fuel e1 s with
        | none => simp [hE] at h
        | some x =>
          cases x with
          | error er => simp [hE] at h
          | ok o =>
            cases o with
            | none => simp [hE] at h
            | some rv =>
              simp only [hE, Option.some.injEq, Except.ok.injEq,
                Prod.mk.injEq] at h
              obtain ⟨rfl, rfl⟩ := h
              exact List.suffix_refl _
      | notNext e1 =>
        rw [interp_not_next] at h
        cases hE : interp g fuel e1 s with
        | none => simp [hE] at h
        | some x =>
          cases x with
          | error er => simp [hE] at h
          | ok o =>
            cases o with
            | some rv => simp [hE] at h
            | none =>
              simp only [hE, Option.some.injEq, Except.ok.injEq,
                Prod.mk.injEq] at h
              obtain ⟨rfl, rfl⟩ := h
              exact List.suffix_refl _
      | seq es =>
        rw [interp_seq] at h
        exact ihS es s [] r v h
      | alt es =>
        rw [interp_alt] at h
        exact ihA es s r v h
      | opt e1 =>
        rw [interp_opt] at h
        cases hE : interp g fuel e1 s with
        | none => simp [hE] at h
        | some x =>
          cases x with
          | error er => simp [hE] at h
          | ok o =>
            cases o with
            | some rv =>
              obtain ⟨r1, v1⟩ := rv
              simp only [hE, Option.some.injEq, Except.ok.injEq,
                Prod.mk.injEq] at h
              obtain ⟨rfl, rfl⟩ := h
              exact ihE e1 s r1 v1 hE
            | none =>
              simp only [hE, Option.some.injEq, Except.ok.injEq,
                Prod.mk.injEq] at h
              obtain ⟨rfl, rfl⟩ := h
              exact List.suffix_refl _
      | rep0 e1 d =>
        rw [interp_rep0] at h
        cases hE : interp g fuel e1 s with
        | none => simp [hE] at h
        | some x =>
          cases x with
          | error er => simp [hE] at h
          | ok o =>
            cases o with
            | none =>
              simp only [hE, Option.some.injEq, Except.ok.injEq,
                Prod.mk.injEq] at h
              obtain ⟨rfl, rfl⟩ := h
              exact List.suffix_refl _
            | some rv =>
              obtain ⟨s1, o1⟩ := rv
              simp only [hE] at h
              exact (ih0 e1 d s1 o1 [] r v h).trans (ihE e1 s s1 o1 hE)
      | rep1 e1 d =>
        rw [interp_rep1] at h
        cases hE : interp g fuel e1 s with
        | none => simp [hE] at h
        | some x =>
          cases x with
          | error er => simp [hE] at h
          | ok o =>
            cases o with
            | none => simp [hE] at h
            | some rv =>
              obtain ⟨s1, o1⟩ := rv
              simp only [hE] at h
              exact (ih1 e1 d s1 o1 [] r v h).trans (ihE e1 s s1 o1 hE)
      | valFix v0 e1 =>
        rw [interp_val_fix] at h
        cases hE : interp g fuel e1 s with
        | none => simp [hE] at h
        | some x =>
          cases x with
          | error er => simp [hE] at h
          | ok o =>
            cases o with
            | none => simp [hE] at h
            | some rv =>
              obtain ⟨r1, v1⟩ := rv
              simp only [hE, Option.some.injEq, Except.ok.injEq,
                Prod.mk.injEq] at h
              obtain ⟨rfl, rfl⟩ := h
              exact ihE e1 s r1 v1 hE
      | valMap fn e1 =>
        rw [interp_val_map] at h
        cases hE : interp g fuel e1 s with
        | none => simp [hE] at h
        | some x =>
          cases x with
          | error er => simp [hE] at h
          | ok o =>
            cases o with
            | none => simp [hE] at h
            | some rv =>
              obtain ⟨r1, v1⟩ := rv
              simp only [hE, Option.some.injEq, Except.ok.injEq,
                Prod.mk.injEq] at h
              obtain ⟨rfl, rfl⟩ := h
              exact ihE e1 s r1 v1 hE
    · intro es s data r v h
      cases es with
      | nil =>
        rw [iSeq_nil] at h
        simp only [Option.some.injEq, Except.ok.injEq, Prod.mk.injEq] at h
        obtain ⟨rfl, rfl⟩ := h
        exact List.suffix_refl _
      | cons e1 es =>
        rw [iSeq_cons] at h
        cases hE : interp g fuel e1 s with
        | none => simp [hE] at h
        | some x =>
          cases x with
          | error er => simp [hE] at h
          | ok o =>
            cases o with
            | none => simp [hE] at h
            | some rv =>
              obtain ⟨s1, o1⟩ := rv
              simp only [hE] at h
              exact (ihS es s1 (keep data o1) r v h).trans (ihE e1 s s1 o1 hE)
    · intro es s r v h
      cases es with
      | nil =>
        rw [iAlt_nil] at h
        simp at h
      | cons e1 es =>
        rw [iAlt_cons] at h
        cases hE : interp g fuel e1 s with
        | none => simp [hE] at h
        | some x =>
          cases x with
          | error er => simp [hE] at h
          | ok o =>
            cases o with
            | some rv =>
              obtain ⟨r1, v1⟩ := rv
              simp only [hE, Option.some.injEq, Except.ok.injEq,
                Prod.mk.injEq] at h
              obtain ⟨rfl, rfl⟩ := h
              exact ihE e1 s r1 v1 hE
            | none =>
              simp only [hE] at h
              exact ihA es s r v h
    · intro e d s obj data r v h
      cases d with
      | none =>
        rw [iRep0_succ_none] at h
        cases hE : interp g fuel e s with
        | none => simp [hE] at h
        | some x =>
          cases x with
          | error er => simp [hE] at h
          | ok o =>
            cases o with
            | none =>
              simp only [hE, Option.some.injEq, Except.ok.injEq,
                Prod.mk.injEq] at h
              obtain ⟨rfl, rfl⟩ := h
              exact List.suffix_refl _
            | some rv =>
              obtain ⟨s1, o1⟩ := rv
              simp only [hE] at h
              exact (ih0 e none s1 o1 (keep data obj) r v h).trans
                (ihE e s s1 o1 hE)
      | some dm =>
        rw [iRep0_succ_some] at h
        cases hd : interp g fuel dm s with
        | none => simp [hd] at h
        | some x =>
          cases x with
          | error er => simp [hd] at h
          | ok o =>
            cases o with
            | none =>
              simp only [hd, Option.some.injEq, Except.ok.injEq,
                Prod.mk.injEq] at h
              obtain ⟨rfl, rfl⟩ := h
              exact List.suffix_refl _
            | some rv =>
              obtain ⟨s1, objd⟩ := rv
              simp only [hd] at h
              cases hE : interp g fuel e s1 with
              | none => simp [hE] at h
              | some x2 =>
                cases x2 with
                | error er => simp [hE] at h
                | ok o2 =>
                  cases o2 with
                  | none =>
                    simp only [hE, Option.some.injEq, Except.ok.injEq,
                      Prod.mk.injEq] at h
                    obtain ⟨rfl, rfl⟩ := h
                    exact ihE dm s s1 objd hd
                  | some rv2 =>
                    obtain ⟨s2, o2⟩ := rv2
                    simp only [hE] at h
                    exact ((ih0 e (some dm) s2 o2 (keep (keep data obj) objd)
                        r v h).trans (ihE e s1 s2 o2 hE)).trans
                      (ihE dm s s1 objd hd)
    · intro e d s obj data r v h
      by_cases hobj : obj = PValue.ignore
      case neg =>
        rw [iRep1_succ_accumulate g fuel e d s obj data hobj] at h
        exact nomatch h
      case pos =>
        subst hobj
        cases d with
        | none =>
          rw [iRep1_succ_none] at h
          cases hE : interp g fuel e s with
          | none => simp [hE] at h
          | some x =>
            cases x with
            | error er => simp [hE] at h
            | ok o =>
              cases o with
              | none =>
                simp only [hE, Option.some.injEq, Except.ok.injEq,
                  Prod.mk.injEq] at h
                obtain ⟨rfl, rfl⟩ := h
                exact List.suffix_refl _
              | some rv =>
                obtain ⟨s1, o1⟩ := rv
                simp only [hE] at h
                exact (ih1 e none s1 o1 data r v h).trans (ihE e s s1 o1 hE)
        | some dm =>
          rw [iRep1_succ_some] at h
          cases hd : interp g fuel dm s with
          | none => simp [hd] at h
          | some x =>
            cases x with
            | error er => simp [hd] at h
            | ok o =>
              cases o with
              | none =>
                simp only [hd, Option.some.injEq, Except.ok.injEq,
                  Prod.mk.injEq] at h
                obtain ⟨rfl, rfl⟩ := h
                exact List.suffix_refl _
              | some rv =>
                obtain ⟨s1, objd⟩ := rv
                simp only [hd] at h
                cases hE : interp g fuel e s1 with
                | none => simp [hE] at h
                | some x2 =>
                  cases x2 with
                  | error er => simp [hE] at h
                  | ok o2 =>
                    cases o2 with
                    | none =>
                      simp only [hE, Option.some.injEq, Except.ok.injEq,
                        Prod.mk.injEq] at h
                      obtain ⟨rfl, rfl⟩ := h
                      exact ihE dm s s1 objd hd
                    | some rv2 =>
                      obtain ⟨s2, o2⟩ := rv2
                      simp only [hE] at h
                      exact ((ih1 e (some dm) s2 o2 (keep data objd)
                          r v h).trans (ihE e s1 s2 o2 hE)).trans
                        (ihE dm s s1 objd hd)

/-- C5: for every matcher built from the engine's constructors (literal,
regex, nonterminal, both lookaheads, sequence, choice, optional, both
repetitions, with or without a value transform), every grammar and every
input: a successful match's remainder is a suffix of the input the matcher
was given — the engine never invents characters or reorders input. -/
theorem interp_remainder_suffix (g : Grammar) (fuel : Nat) (e : PegExpr)
    (s r : Str) (v : PValue)
    (h : interp g fuel e s = some (.ok (some (r, v)))) : r <:+ s :=
  (suffix_joint g fuel).1 e s r v h

/-- Witness for C5: `sequence(literal('a'), optional(literal('b')))` on
`"abc"` leaves remainder `"c"`, a suffix of `"abc"`. -/
theorem interp_remainder_suffix_witness : (['c'] : Str) <:+ ['a', 'b', 'c'] :=
  interp_remainder_suffix [] 5 (.seq [.lit ['a'], .opt (.lit ['b'])])
    ['a', 'b', 'c'] ['c'] (.list [.str ['a'], .str ['b']]) rfl
